import Mathlib

/-!
Shallow embedding of the stock-track multi-tenant auth and user-management core.

Sources embedded here:
- src/unnamed/part_001 : the User entity (roles, statuses, the BeforeInsert /
  BeforeUpdate hashPassword hook, validatePassword).
- src/stock-track-api/src/users/users.controller.ts : contains both the
  UsersController and the request-scoped UsersService (tenant-filtered queries,
  create / findAll / findOne / findByEmail / update / changePassword / remove /
  activate / deactivate / updateLastLogin / bulk operations).
- src/stock-track-api/src/auth/auth.service.ts and auth.controller.ts : the
  register / login / refresh / logout flows.

Machine integers do not occur; ids, tenant ids and timestamps are Nat, JWT
timestamps are seconds.  Fallible operations return Except paired with the
resulting store so that error paths visibly leave the store unchanged.
-/

namespace StockTrack

/-- UserRole enumeration from the User entity (src/unnamed/part_001). -/
inductive UserRole where
  | super_admin
  | admin
  | manager
  | employee
  | viewer
  deriving DecidableEq, Repr

/-- UserStatus enumeration from the User entity (src/unnamed/part_001). -/
inductive UserStatus where
  | active
  | inactive
  | pending
  | suspended
  deriving DecidableEq, Repr

/-- The NestJS HTTP exception taxonomy used by the embedded code paths.
ApiError.other stands for any exception that is none of the typed HTTP
exceptions (for example a database driver or signing failure). -/
inductive ApiError where
  | notFound (msg : String)
  | conflict (msg : String)
  | badRequest (msg : String)
  | forbidden (msg : String)
  | unauthorized (msg : String)
  | other (msg : String)
  deriving DecidableEq, Repr

/-- True exactly on ConflictException, mirroring the instanceof check in
AuthService.register. -/
def isConflictErr : ApiError → Bool
  | ApiError.conflict _ => true
  | _ => false

/-- True exactly on ForbiddenException. -/
def isForbiddenErr : ApiError → Bool
  | ApiError.forbidden _ => true
  | _ => false

/-- True exactly on Except.ok. -/
def isOkE {α : Type} : Except ApiError α → Bool
  | Except.ok _ => true
  | Except.error _ => false

/-- Lowercasing, the toLowerCase applied to emails; written over the
character list so that it evaluates by kernel reduction. -/
def lowerStr (s : String) : String := String.mk (s.data.map Char.toLower)

/-- The startsWith test of the hashPassword hook, written over the character
lists. -/
def strStartsWith (s pre : String) : Bool := pre.data.isPrefixOf s.data

/-- Substring search over character lists, the SQL LIKE with wildcards on
both sides. -/
def containsChars (ndl : List Char) : List Char → Bool
  | [] => ndl.isEmpty
  | c :: t => ndl.isPrefixOf (c :: t) || containsChars ndl t

/-- Case-insensitive LIKE with wildcards on both sides (ILIKE percent-s-percent). -/
def ilike (hay pat : String) : Bool :=
  containsChars (pat.data.map Char.toLower) (hay.data.map Char.toLower)

/-- Modelled from the spec: the bcrypt library called by User.hashPassword and
User.validatePassword (src/unnamed/part_001) is an external dependency whose
source is not in src/.  Per spec section 4.1 it is an idealized injective
one-way digest; the digest carries the "$2a$" marker which the hashPassword
hook inspects.  The cost factor and salt play no role in the claims and are
omitted. -/
def bcryptHash (secret : String) : String := "$2a$" ++ secret

/-- Modelled from the spec: bcrypt verification, a comparison of a secret
against a digest (spec section 4.1 verify). -/
def bcryptCompare (secret digest : String) : Bool := digest == bcryptHash secret

/-- User.hashPassword, the BeforeInsert / BeforeUpdate hook
(src/unnamed/part_001 lines 184-191): hash the password_hash field only when
it is truthy (a JS string is falsy exactly when empty) and does not already
start with the bcrypt marker "$2a$"; an empty or "$2a$"-prefixed value is
left verbatim. -/
def hashPasswordHook (password_hash : String) : String :=
  if password_hash.data.isEmpty then password_hash
  else if strStartsWith password_hash "$2a$" then password_hash
  else bcryptHash password_hash

/-- User.validatePassword (src/unnamed/part_001 lines 193-196): compare a
candidate password against the stored digest.  Also stands for the
usersService.validatePassword call in AuthService.validateUser, whose source
file is not in src/ (modelled from the spec, section 4.1 verify). -/
def validatePassword (password password_hash : String) : Bool :=
  bcryptCompare password password_hash

/-- A signed JWT, determined by its claim set; jsonwebtoken signing is
deterministic for a fixed secret, so two tokens with the same claims and valid
signatures are the same string.  sigOk records whether the signature bytes
are the genuine ones for this claim set. -/
structure Jwt where
  sub : Nat
  email : String
  iat : Nat
  exp : Nat
  sigOk : Bool
  deriving DecidableEq, Repr

/-- The bcrypt fingerprint of a refresh token as stored on the user row.
Idealized as in bcryptHash: the digest determines which token it verifies. -/
structure TokenDigest where
  val : Jwt
  deriving DecidableEq, Repr

/-- bcrypt.hash applied to a refresh token string
(AuthService.updateRefreshToken, auth.service.ts line 95). -/
def bcryptHashToken (t : Jwt) : TokenDigest := TokenDigest.mk t

/-- bcrypt.compare of a presented refresh token against a stored fingerprint
(AuthService.refreshTokens, auth.service.ts line 59). -/
def bcryptCompareToken (t : Jwt) (d : TokenDigest) : Bool := t == d.val

/-- One persisted row of the users table, with the columns the embedded
operations read or write (src/unnamed/part_001).  The refreshToken column is
read and written by AuthService; the User entity in src/ does not declare it,
so it is modelled from the spec (section 3 RefreshRecord: a salted hash of the
currently valid refresh token, or absent).  deleted models the soft-delete
marker written by repository.softDelete. -/
structure UserRow where
  id : Nat
  tenant : Nat
  email : String
  password_hash : String
  first_name : String
  last_name : String
  role : UserRole
  status : UserStatus
  phone : Option String
  department : Option String
  position : Option String
  employee_id : Option String
  bio : Option String
  last_login_at : Option Nat
  password_reset_token : Option String
  password_reset_expires_at : Option Nat
  refreshToken : Option TokenDigest
  updated_by : Option Nat
  created_at : Nat
  updated_at : Nat
  deleted : Bool
  deriving DecidableEq, Repr

/-- The persistent users table. -/
abbrev Store : Type := List UserRow

/-- The authenticated principal attached to the request by the transport
layer (users.controller.ts lines 265-269: request.user). -/
structure CtxUser where
  id : Nat
  role : Option String
  deriving DecidableEq, Repr

/-- The request-scoped context injected into UsersService
(users.controller.ts lines 265-269): the authoritative tenant id and the
authenticated user, when present. -/
structure RequestCtx where
  tenantId : Nat
  user : Option CtxUser
  deriving DecidableEq, Repr

/-- UsersService.getTenantId (users.controller.ts lines 272-274). -/
def getTenantId (ctx : RequestCtx) : Nat := ctx.tenantId

/-- UsersService.getCurrentUserId (users.controller.ts lines 276-278). -/
def getCurrentUserId (ctx : RequestCtx) : Option Nat := ctx.user.map (fun u => u.id)

/-- UsersService.isAdmin (users.controller.ts lines 521-524). -/
def isAdmin (ctx : RequestCtx) : Bool :=
  let r := (ctx.user.bind (fun u => u.role)).getD ""
  r == "super_admin" || r == "admin"

/-- CreateUserDto (src/stock-track-api/src/users/dto/create-user.dto.ts),
restricted to the fields that map onto persisted User columns.  role and
status carry the DTO defaults employee and pending through getD at use. -/
structure CreateUserDto where
  email : String
  password : String
  first_name : String
  last_name : String
  role : Option UserRole
  status : Option UserStatus
  phone : Option String
  department : Option String
  position : Option String
  employee_id : Option String
  bio : Option String
  deriving DecidableEq, Repr

/-- Modelled from the spec: update-user.dto.ts is not in src/; per the create
DTO and the update code path it is the optional variant of the create fields,
without any password or tenant field (spec section 6: write Principal fields).
A field left none leaves the stored column unchanged. -/
structure UpdateUserDto where
  email : Option String
  first_name : Option String
  last_name : Option String
  role : Option UserRole
  status : Option UserStatus
  phone : Option String
  department : Option String
  position : Option String
  employee_id : Option String
  bio : Option String
  deriving DecidableEq, Repr

/-- ChangePasswordDto: current and new password
(users.controller.ts line 463). -/
structure ChangePasswordDto where
  current_password : String
  new_password : String
  deriving DecidableEq, Repr

/-- Sort direction of UserQueryDto.sort_order (src/unnamed/part_002). -/
inductive SortOrder where
  | asc
  | desc
  deriving DecidableEq, Repr

/-- UserQueryDto (src/unnamed/part_002).  page and limit keep their
destructuring defaults at use in findAll; sort_order carries the DTO default
DESC as a plain field since the validation pipe always materializes it. -/
structure UserQueryDto where
  page : Option Nat
  limit : Option Nat
  search : Option String
  role : Option UserRole
  status : Option UserStatus
  department : Option String
  sort_by : Option String
  sort_order : SortOrder
  deriving DecidableEq, Repr

/-- UsersService.getBaseQuery (users.controller.ts lines 280-284): every query
starts from the rows whose tenant_id equals the request tenant. -/
def baseQuery (ctx : RequestCtx) (st : Store) : List UserRow :=
  st.filter (fun u => u.tenant == ctx.tenantId)

/-- Next generated primary key for an insert. -/
def freshId (st : Store) : Nat :=
  (st.foldr (fun u m => max u.id m) 0) + 1

/-- UsersService.create (users.controller.ts lines 286-307): tenant-scoped
duplicate-email check, then insert with the tenant taken from the request
scope; the save runs the BeforeInsert hashPassword hook. -/
def create (ctx : RequestCtx) (st : Store) (dto : CreateUserDto) (now : Nat) :
    Except ApiError UserRow × Store :=
  let emailLower := lowerStr dto.email
  match (baseQuery ctx st).find? (fun u => u.email == emailLower) with
  | some _ => (Except.error (ApiError.conflict "User with this email already exists"), st)
  | none =>
    let row : UserRow :=
      { id := freshId st
        tenant := getTenantId ctx
        email := emailLower
        password_hash := hashPasswordHook dto.password
        first_name := dto.first_name
        last_name := dto.last_name
        role := dto.role.getD UserRole.employee
        status := dto.status.getD UserStatus.pending
        phone := dto.phone
        department := dto.department
        position := dto.position
        employee_id := dto.employee_id
        bio := dto.bio
        last_login_at := none
        password_reset_token := none
        password_reset_expires_at := none
        refreshToken := none
        updated_by := none
        created_at := now
        updated_at := now
        deleted := false }
    (Except.ok row, st ++ [row])

/-- The search filter of findAll (users.controller.ts lines 325-330):
first_name, last_name, email or employee_id ILIKE the search term. -/
def matchesSearch (s : String) (u : UserRow) : Bool :=
  ilike u.first_name s || ilike u.last_name s || ilike u.email s ||
    (match u.employee_id with
     | some e => ilike e s
     | none => false)

/-- The whitelisted sort fields of findAll (users.controller.ts lines 348-354). -/
def validSortFields : List String :=
  ["first_name", "last_name", "email", "created_at", "last_login_at"]

/-- Comparison of optional timestamps: null values sort first. -/
def optionNatLe : Option Nat → Option Nat → Bool
  | none, _ => true
  | some _, none => false
  | some a, some b => a ≤ b

/-- Ascending comparison on one whitelisted sort field. -/
def fieldLe (field : String) (a b : UserRow) : Bool :=
  if field == "first_name" then a.first_name ≤ b.first_name
  else if field == "last_name" then a.last_name ≤ b.last_name
  else if field == "email" then a.email ≤ b.email
  else if field == "last_login_at" then optionNatLe a.last_login_at b.last_login_at
  else a.created_at ≤ b.created_at

/-- Insert into a sorted list, keeping the comparator order. -/
def insertSorted {α : Type} (le : α → α → Bool) (x : α) : List α → List α
  | [] => [x]
  | y :: ys => if le x y then x :: y :: ys else y :: insertSorted le x ys

/-- Insertion sort by a boolean comparator, standing for the orderBy clause. -/
def sortRows {α : Type} (le : α → α → Bool) (l : List α) : List α :=
  l.foldr (insertSorted le) []

/-- An optional andWhere clause: filter when the query parameter is
present, pass the rows through otherwise. -/
def optFilter {Q : Type} (o : Option Q) (p : Q → UserRow → Bool)
    (l : List UserRow) : List UserRow :=
  match o with
  | some b => l.filter (p b)
  | none => l

/-- The row set read by UsersService.findAll before pagination
(users.controller.ts lines 322-358): the tenant-scoped base query with the
optional search, role, status and department filters, ordered by the
whitelisted sort field. -/
def findAllRows (ctx : RequestCtx) (st : Store) (q : UserQueryDto) : List UserRow :=
  let rows := baseQuery ctx st
  let rows := optFilter q.search matchesSearch rows
  let rows := optFilter q.role (fun r u => u.role == r) rows
  let rows := optFilter q.status (fun s u => u.status == s) rows
  let rows := optFilter q.department (fun d u => ilike ((u.department).getD "") d) rows
  let sb := q.sort_by.getD ""
  let field := if validSortFields.contains sb then sb else "created_at"
  let le := match q.sort_order with
    | SortOrder.asc => fieldLe field
    | SortOrder.desc => fun a b => fieldLe field b a
  sortRows le rows

/-- One element of the findAll response data array, exactly the object
literal of users.controller.ts lines 367-384. -/
structure UserResponseItem where
  id : Nat
  first_name : String
  last_name : String
  email : String
  role : UserRole
  status : UserStatus
  department : Option String
  employee_id : Option String
  created_at : Nat
  updated_at : Nat
  last_login_at : Option Nat
  full_name : String
  is_active : Bool
  password_hash : String
  password_reset_token : Option String
  password_reset_expires_at : Option Nat
  deriving DecidableEq, Repr

/-- The mapping applied to each fetched row in findAll
(users.controller.ts lines 367-384). -/
def toResponseItem (u : UserRow) : UserResponseItem :=
  { id := u.id
    first_name := u.first_name
    last_name := u.last_name
    email := u.email
    role := u.role
    status := u.status
    department := u.department
    employee_id := u.employee_id
    created_at := u.created_at
    updated_at := u.updated_at
    last_login_at := u.last_login_at
    full_name := u.first_name ++ " " ++ u.last_name
    is_active := u.status == UserStatus.active
    password_hash := u.password_hash
    password_reset_token := u.password_reset_token
    password_reset_expires_at := u.password_reset_expires_at }

/-- PaginatedUsersResponseDto (src/unnamed/part_003). -/
structure PaginatedUsers where
  data : List UserResponseItem
  total : Nat
  page : Nat
  limit : Nat
  total_pages : Nat
  has_next : Bool
  has_prev : Bool
  deriving DecidableEq, Repr

/-- UsersService.findAll (users.controller.ts lines 309-397). -/
def findAll (ctx : RequestCtx) (st : Store) (q : UserQueryDto) : PaginatedUsers :=
  let page := q.page.getD 1
  let limit := q.limit.getD 10
  let offset := (page - 1) * limit
  let rows := findAllRows ctx st q
  let total := rows.length
  let users := (rows.drop offset).take limit
  let total_pages := (total + limit - 1) / limit
  { data := users.map toResponseItem
    total := total
    page := page
    limit := limit
    total_pages := total_pages
    has_next := page < total_pages
    has_prev := 1 < page }

/-- UsersService.findOne (users.controller.ts lines 399-409): tenant-scoped
lookup by id, NotFound when absent. -/
def findOne (ctx : RequestCtx) (st : Store) (id : Nat) : Except ApiError UserRow :=
  match (baseQuery ctx st).find? (fun u => u.id == id) with
  | some u => Except.ok u
  | none => Except.error (ApiError.notFound "User not found")

/-- UsersService.findByEmail (users.controller.ts lines 411-415): tenant-scoped
lookup by lowercased email. -/
def findByEmail (ctx : RequestCtx) (st : Store) (email : String) : Option UserRow :=
  (baseQuery ctx st).find? (fun u => u.email == lowerStr email)

/-- repository.save of an already-fetched entity: the row with the same
primary key is replaced, the BeforeUpdate hashPassword hook runs, and
updated_at is refreshed.  Returns the saved entity and the new store. -/
def saveExisting (st : Store) (r : UserRow) (now : Nat) : UserRow × Store :=
  let r' := { r with password_hash := hashPasswordHook r.password_hash, updated_at := now }
  (r', st.map (fun v => if v.id == r.id then r' else v))

/-- The Object.assign of UsersService.update (users.controller.ts
lines 428-432): overwrite the provided fields, lowercase the email, stamp
updated_by with the current user. -/
def applyUpdate (ctx : RequestCtx) (dto : UpdateUserDto) (u : UserRow) : UserRow :=
  { u with
    email := (dto.email.map lowerStr).getD u.email
    first_name := dto.first_name.getD u.first_name
    last_name := dto.last_name.getD u.last_name
    role := dto.role.getD u.role
    status := dto.status.getD u.status
    phone := match dto.phone with
      | some p => some p
      | none => u.phone
    department := match dto.department with
      | some d => some d
      | none => u.department
    position := match dto.position with
      | some p => some p
      | none => u.position
    employee_id := match dto.employee_id with
      | some e => some e
      | none => u.employee_id
    bio := match dto.bio with
      | some b => some b
      | none => u.bio
    updated_by := getCurrentUserId ctx }

/-- UsersService.update (users.controller.ts lines 417-435). -/
def update (ctx : RequestCtx) (st : Store) (id : Nat) (dto : UpdateUserDto) (now : Nat) :
    Except ApiError UserRow × Store :=
  match findOne ctx st id with
  | Except.error e => (Except.error e, st)
  | Except.ok user =>
    let dup : Bool := match dto.email with
      | some e' => if e' != user.email then (findByEmail ctx st e').isSome else false
      | none => false
    if dup then
      (Except.error (ApiError.conflict "User with this email already exists"), st)
    else
      let saved := saveExisting st (applyUpdate ctx dto user) now
      (Except.ok saved.1, saved.2)

/-- UsersService.changePassword (users.controller.ts lines 451-476): only the
caller, then current-password check, then save of the new password (hashed by
the BeforeUpdate hook). -/
def changePassword (ctx : RequestCtx) (st : Store) (id : Nat) (dto : ChangePasswordDto)
    (now : Nat) : Except ApiError Unit × Store :=
  if getCurrentUserId ctx != some id then
    (Except.error (ApiError.forbidden "You can only change your own password"), st)
  else
    match findOne ctx st id with
    | Except.error e => (Except.error e, st)
    | Except.ok user =>
      if validatePassword dto.current_password user.password_hash then
        let r := { user with
          password_hash := dto.new_password
          updated_by := getCurrentUserId ctx }
        (Except.ok (), (saveExisting st r now).2)
      else
        (Except.error (ApiError.badRequest "Current password is incorrect"), st)

/-- UsersService.remove (users.controller.ts lines 478-488): tenant-scoped
fetch, self-deletion guard, then repository.softDelete by primary key. -/
def remove (ctx : RequestCtx) (st : Store) (id : Nat) : Except ApiError Unit × Store :=
  match findOne ctx st id with
  | Except.error e => (Except.error e, st)
  | Except.ok _ =>
    if getCurrentUserId ctx == some id then
      (Except.error (ApiError.badRequest "You cannot delete your own account"), st)
    else
      (Except.ok (), st.map (fun v => if v.id == id then { v with deleted := true } else v))

/-- UsersService.activate (users.controller.ts lines 490-498). -/
def activate (ctx : RequestCtx) (st : Store) (id : Nat) (now : Nat) :
    Except ApiError UserRow × Store :=
  match findOne ctx st id with
  | Except.error e => (Except.error e, st)
  | Except.ok user =>
    let r := { user with
      status := UserStatus.active
      updated_by := some ((getCurrentUserId ctx).getD 0) }
    let saved := saveExisting st r now
    (Except.ok saved.1, saved.2)

/-- UsersService.deactivate (users.controller.ts lines 500-512): tenant-scoped
fetch, self-deactivation guard, then save of the inactive status. -/
def deactivate (ctx : RequestCtx) (st : Store) (id : Nat) (now : Nat) :
    Except ApiError UserRow × Store :=
  match findOne ctx st id with
  | Except.error e => (Except.error e, st)
  | Except.ok user =>
    if getCurrentUserId ctx == some id then
      (Except.error (ApiError.badRequest "You cannot deactivate your own account"), st)
    else
      let r := { user with
        status := UserStatus.inactive
        updated_by := some ((getCurrentUserId ctx).getD 0) }
      let saved := saveExisting st r now
      (Except.ok saved.1, saved.2)

/-- UsersService.updateLastLogin (users.controller.ts lines 514-519):
criteria-based update keyed by id and the scope tenant. -/
def updateLastLogin (ctx : RequestCtx) (st : Store) (id : Nat) (now : Nat) : Store :=
  st.map (fun v =>
    if v.id == id && v.tenant == getTenantId ctx then
      { v with last_login_at := some now }
    else v)

/-- UsersService.bulkActivate (users.controller.ts lines 527-540):
criteria-based update keyed by the id list and the scope tenant. -/
def bulkActivate (ctx : RequestCtx) (st : Store) (ids : List Nat) (now : Nat) : Store :=
  st.map (fun v =>
    if ids.contains v.id && v.tenant == getTenantId ctx then
      { v with status := UserStatus.active, updated_by := getCurrentUserId ctx,
               updated_at := now }
    else v)

/-- UsersService.bulkDeactivate (users.controller.ts lines 542-560): the
current user is filtered out of the id list, then a criteria-based update
keyed by the remaining ids and the scope tenant (the dollar-in object literal
in the source is embedded as the intended id-membership criterion). -/
def bulkDeactivate (ctx : RequestCtx) (st : Store) (ids : List Nat) (now : Nat) : Store :=
  let filteredIds := ids.filter (fun i => getCurrentUserId ctx != some i)
  if filteredIds.isEmpty then st
  else
    st.map (fun v =>
      if filteredIds.contains v.id && v.tenant == getTenantId ctx then
        { v with status := UserStatus.inactive, updated_by := getCurrentUserId ctx,
                 updated_at := now }
      else v)

/-- The externally supplied token lifetimes (JWT_ACCESS_TOKEN_EXPIRATION and
JWT_REFRESH_TOKEN_EXPIRATION read in auth.service.ts lines 77-86). -/
structure JwtConfig where
  accessTTL : Nat
  refreshTTL : Nat
  deriving DecidableEq, Repr

/-- jwtService.signAsync of the payload with sub and email: a genuine
signature over the claim set, issued-at now, expiring after ttl seconds. -/
def signToken (userId : Nat) (email : String) (now ttl : Nat) : Jwt :=
  { sub := userId, email := email, iat := now, exp := now + ttl, sigOk := true }

/-- AuthTokens (auth.service.ts lines 9-12). -/
structure AuthTokens where
  accessToken : Jwt
  refreshToken : Jwt
  deriving DecidableEq, Repr

/-- AuthService.generateTokens (auth.service.ts lines 74-92). -/
def generateTokens (cfg : JwtConfig) (userId : Nat) (email : String) (now : Nat) : AuthTokens :=
  { accessToken := signToken userId email now cfg.accessTTL
    refreshToken := signToken userId email now cfg.refreshTTL }

/-- Modelled from the spec: Token Issuer verification (spec section 4.2) —
fails on a bad signature or an exp in the past.  The refresh flow in src/
never calls it; it is embedded so that claims about verification can be
stated against the flow. -/
def verifyToken (t : Jwt) (now : Nat) : Bool := t.sigOk && now ≤ t.exp

/-- jwtService.decode as called by AuthController.refreshTokens
(auth.controller.ts line 55): returns the claim set without checking the
signature or the expiry. -/
def jwtDecode (t : Jwt) : Jwt := t

/-- Modelled from the spec: UsersService.findById called by AuthService is not
in the UsersService under src/; per spec section 6 it reads a Principal row by
id. -/
def findById (st : Store) (id : Nat) : Option UserRow :=
  st.find? (fun u => u.id == id)

/-- Modelled from the spec: usersService.updateRefreshToken called by
AuthService is not in the UsersService under src/; per spec section 4.3 it
overwrites the stored refresh fingerprint of the principal (or clears it). -/
def storeRefreshDigest (st : Store) (userId : Nat) (d : Option TokenDigest) : Store :=
  st.map (fun v => if v.id == userId then { v with refreshToken := d } else v)

/-- AuthService.updateRefreshToken (auth.service.ts lines 94-97): bcrypt-hash
the new refresh token (or null) and store it on the principal. -/
def updateRefreshToken (st : Store) (userId : Nat) (rt : Option Jwt) : Store :=
  storeRefreshDigest st userId (rt.map bcryptHashToken)

/-- AuthService.refreshTokens (auth.service.ts lines 53-68): look the user up
by id, compare the presented refresh token against the stored fingerprint,
and on match issue a fresh pair and rotate the stored fingerprint.  The error
path returns the store unchanged. -/
def refreshTokens (cfg : JwtConfig) (st : Store) (userId : Nat) (presented : Jwt)
    (now : Nat) : Except ApiError AuthTokens × Store :=
  match findById st userId with
  | none => (Except.error (ApiError.unauthorized "Access Denied"), st)
  | some user =>
    match user.refreshToken with
    | none => (Except.error (ApiError.unauthorized "Access Denied"), st)
    | some d =>
      if bcryptCompareToken presented d then
        let tokens := generateTokens cfg user.id user.email now
        (Except.ok tokens, updateRefreshToken st user.id (some tokens.refreshToken))
      else
        (Except.error (ApiError.unauthorized "Access Denied"), st)

/-- AuthController.refreshTokens (auth.controller.ts lines 50-65): decode the
presented token — no signature or expiry verification — reject a falsy sub,
then delegate to AuthService.refreshTokens with the decoded sub. -/
def refreshFlow (cfg : JwtConfig) (st : Store) (presented : Jwt) (now : Nat) :
    Except ApiError AuthTokens × Store :=
  let decoded := jwtDecode presented
  if decoded.sub == 0 then
    (Except.error (ApiError.unauthorized "Invalid refresh token"), st)
  else
    refreshTokens cfg st decoded.sub presented now

/-- The stripped user returned by AuthService.validateUser (the destructuring
drops the password digest and the refresh fingerprint). -/
structure ValidatedUser where
  id : Nat
  tenant : Nat
  email : String
  role : UserRole
  status : UserStatus
  first_name : String
  last_name : String
  deriving DecidableEq, Repr

/-- AuthService.validateUser (auth.service.ts lines 22-29): look the user up
by email, compare the supplied password against the stored digest, and return
the stripped user on match — the stored status is never consulted.  The
entity column is password_hash; the usersService.validatePassword helper it
calls is modelled from the spec (section 4.1 verify). -/
def validateUser (ctx : RequestCtx) (st : Store) (email password : String) :
    Option ValidatedUser :=
  match findByEmail ctx st email with
  | some user =>
    if validatePassword password user.password_hash then
      some { id := user.id, tenant := user.tenant, email := user.email,
             role := user.role, status := user.status,
             first_name := user.first_name, last_name := user.last_name }
    else none
  | none => none

/-- The login flow: the LocalAuthGuard (strategy file not in src/; modelled
from the spec, section 4.6 Login) rejects with Unauthorized when validateUser
returns null, else AuthService.login (auth.service.ts lines 47-51) issues a
pair and rotates the refresh fingerprint. -/
def loginFlow (ctx : RequestCtx) (cfg : JwtConfig) (st : Store)
    (email password : String) (now : Nat) :
    Except ApiError (ValidatedUser × AuthTokens) × Store :=
  match validateUser ctx st email password with
  | none => (Except.error (ApiError.unauthorized "Unauthorized"), st)
  | some u =>
    let tokens := generateTokens cfg u.id u.email now
    (Except.ok (u, tokens), updateRefreshToken st u.id (some tokens.refreshToken))

/-- AuthService.register (auth.service.ts lines 31-45): create the user,
issue a pair, persist the refresh fingerprint — all inside a try block whose
catch rethrows a ConflictException and converts EVERY other error into
ConflictException with message Registration failed.  envFail stands for an
exception raised by the awaited token-signing or persistence calls inside the
try block (the register DTO file is not in src/; the create DTO shape is
used, per the create call). -/
def registerFlow (ctx : RequestCtx) (cfg : JwtConfig) (st : Store)
    (dto : CreateUserDto) (now : Nat) (envFail : Option ApiError) :
    Except ApiError AuthTokens × Store :=
  let attempt : Except ApiError AuthTokens × Store :=
    match create ctx st dto now with
    | (Except.error e, st') => (Except.error e, st')
    | (Except.ok user, st') =>
      match envFail with
      | some e => (Except.error e, st')
      | none =>
        let tokens := generateTokens cfg user.id user.email now
        (Except.ok tokens, updateRefreshToken st' user.id (some tokens.refreshToken))
  match attempt with
  | (Except.ok t, st') => (Except.ok t, st')
  | (Except.error e, st') =>
    if isConflictErr e then (Except.error e, st')
    else (Except.error (ApiError.conflict "Registration failed"), st')

/-- AuthService.logout (auth.service.ts lines 70-72): clear the stored
refresh fingerprint. -/
def logoutFlow (st : Store) (userId : Nat) : Store :=
  updateRefreshToken st userId none

/-! Frame predicates used by the tenant-isolation and frame claims. -/

/-- Primary-key discipline: no two rows share an id. -/
def uniqueIds (st : Store) : Prop :=
  List.Pairwise (fun a b => a.id ≠ b.id) st

/-- A write touches only rows of the given tenant: the stores have the same
shape, and every position that changed held a row of the tenant before the
write and holds a row of the tenant after it. -/
def RowWrites (tid : Nat) (st st' : Store) : Prop :=
  st'.length = st.length ∧
    ∀ p ∈ List.zip st st', p.1 = p.2 ∨ (p.1.tenant = tid ∧ p.2.tenant = tid)

/-! Concrete sample data used by the witnesses and counterexamples. -/

/-- A baseline user row: tenant-scoped, with the digest of the given
password as stored by a create. -/
def mkUser (id tenant : Nat) (email pw : String) (status : UserStatus) : UserRow :=
  { id := id
    tenant := tenant
    email := email
    password_hash := bcryptHash pw
    first_name := "Ann"
    last_name := "Lee"
    role := UserRole.employee
    status := status
    phone := none
    department := none
    position := none
    employee_id := none
    bio := none
    last_login_at := none
    password_reset_token := none
    password_reset_expires_at := none
    refreshToken := none
    updated_by := none
    created_at := 0
    updated_at := 0
    deleted := false }

/-- Sample token lifetimes: 60 second access tokens, 600 second refresh
tokens. -/
def cfg0 : JwtConfig := { accessTTL := 60, refreshTTL := 600 }

/-- Sample scope: tenant 7, authenticated admin with principal id 2. -/
def ctx0 : RequestCtx := { tenantId := 7, user := some { id := 2, role := some "admin" } }

/-- Sample scope: tenant 7, authenticated admin with principal id 1. -/
def ctxSelf : RequestCtx := { tenantId := 7, user := some { id := 1, role := some "admin" } }

/-- A refresh token issued to principal 1 at second 0 with the sample
refresh lifetime. -/
def tok1 : Jwt := signToken 1 "ann@acme.co" 0 cfg0.refreshTTL

/-- The active principal 1 of tenant 7. -/
def rowAnn : UserRow := mkUser 1 7 "ann@acme.co" "Secr3t!pw" UserStatus.active

/-- rowAnn with the digest of tok1 as current refresh fingerprint. -/
def rowRefresh : UserRow := { rowAnn with refreshToken := some (bcryptHashToken tok1) }

/-- A store holding principal 1 of tenant 7 whose current refresh
fingerprint is the digest of tok1. -/
def stRefresh : Store := [rowRefresh]

/-- A refresh token for principal 1 that expired at second 10. -/
def tokExpired : Jwt := { sub := 1, email := "ann@acme.co", iat := 0, exp := 10, sigOk := true }

/-- A store holding principal 1 of tenant 7 whose current refresh
fingerprint is the digest of the expired token. -/
def stExpired : Store :=
  [{ rowAnn with refreshToken := some (bcryptHashToken tokExpired) }]

/-- A store holding an inactive principal of tenant 7. -/
def stInactive : Store :=
  [mkUser 1 7 "ann@acme.co" "Secr3t!pw" UserStatus.inactive]

/-- A store holding one active principal of tenant 7. -/
def stOne : Store := [rowAnn]

/-- A change-password input whose current password matches rowAnn. -/
def cp0 : ChangePasswordDto := { current_password := "Secr3t!pw", new_password := "NewPw12!" }

/-- The row produced by registering dtoReg into an empty store at second 0. -/
def regRow : UserRow :=
  { mkUser 1 7 "new@acme.co" "Passw0rd!" UserStatus.pending with
      first_name := "Bob", last_name := "Kim" }

/-- The row of principal 1 after the password change on stRefresh at
second 3. -/
def rowCpR : UserRow :=
  { rowRefresh with
      password_hash := bcryptHash "NewPw12!"
      updated_by := some 1
      updated_at := 3 }

/-- The store after principal 1 changes the password on stRefresh at
second 3. -/
def stAfterCpR : Store := [rowCpR]

/-- The error component of a result, when there is one. -/
def errAPI {α : Type} : Except ApiError α → Option ApiError
  | Except.error e => some e
  | Except.ok _ => none

/-- A registration input with a fresh email. -/
def dtoReg : CreateUserDto :=
  { email := "new@acme.co", password := "Passw0rd!", first_name := "Bob", last_name := "Kim",
    role := none, status := none, phone := none, department := none, position := none,
    employee_id := none, bio := none }

/-- A registration input whose chosen plaintext password starts with the
bcrypt marker. -/
def dtoEvil : CreateUserDto :=
  { dtoReg with email := "eve@acme.co", password := "$2a$evil-plaintext" }

/-- A registration input whose chosen plaintext password is empty — falsy in
JS, so the hashPassword hook skips it. -/
def dtoEmpty : CreateUserDto :=
  { dtoReg with email := "mt@acme.co", password := "" }

/-- The default findAll query: no filters, default pagination and sorting. -/
def q0 : UserQueryDto :=
  { page := none, limit := none, search := none, role := none, status := none,
    department := none, sort_by := none, sort_order := SortOrder.desc }

/-! Helper lemmas. -/

theorem bcryptHash_injOn {s t : String} (h : bcryptHash s = bcryptHash t) : s = t := by
  have hd := congrArg String.data h
  rw [bcryptHash, bcryptHash, String.data_append, String.data_append] at hd
  exact String.ext (List.append_cancel_left hd)

theorem bcryptHash_ne_self (s : String) : bcryptHash s ≠ s := by
  intro h
  have hd := congrArg (fun x => x.data.length) h
  simp only [bcryptHash, String.data_append, List.length_append] at hd
  have h4 : ("$2a$" : String).data.length = 4 := rfl
  rw [h4] at hd
  omega

theorem mem_zip_self_map {l : List UserRow} {f : UserRow → UserRow} {p : UserRow × UserRow}
    (h : p ∈ List.zip l (l.map f)) : p.2 = f p.1 ∧ p.1 ∈ l := by
  have hz : List.zip l (l.map f) = l.map (fun a => (a, f a)) := by
    have h1 := List.zip_map' (id : UserRow → UserRow) f l
    rw [List.map_id] at h1
    simpa using h1
  rw [hz] at h
  obtain ⟨a, ha, hfa⟩ := List.mem_map.mp h
  constructor
  · rw [← hfa]
  · rw [← hfa]; exact ha

theorem rowWrites_map (tid : Nat) (st : Store) (f : UserRow → UserRow)
    (h : ∀ v ∈ st, f v = v ∨ (v.tenant = tid ∧ (f v).tenant = tid)) :
    RowWrites tid st (st.map f) := by
  constructor
  · simp
  · intro p hp
    obtain ⟨h2, h1⟩ := mem_zip_self_map hp
    rcases h p.1 h1 with he | ht
    · left; rw [h2, he]
    · right; exact ⟨ht.1, by rw [h2]; exact ht.2⟩

theorem rowWrites_self (tid : Nat) (st : Store) : RowWrites tid st st := by
  have h := rowWrites_map tid st id (fun v _ => Or.inl rfl)
  rwa [List.map_id] at h

theorem eq_of_uniqueIds : ∀ {st : Store}, uniqueIds st → ∀ {v w : UserRow},
    v ∈ st → w ∈ st → v.id = w.id → v = w := by
  intro st
  induction st with
  | nil =>
    intro _ v w hv _ _
    exact absurd hv (List.not_mem_nil v)
  | cons a t ih =>
    intro h v w hv hw hid
    rw [uniqueIds, List.pairwise_cons] at h
    obtain ⟨ha, ht⟩ := h
    rcases List.mem_cons.mp hv with rfl | hv'
    · rcases List.mem_cons.mp hw with rfl | hw'
      · rfl
      · exact absurd hid (ha w hw')
    · rcases List.mem_cons.mp hw with rfl | hw'
      · exact absurd hid.symm (ha v hv')
      · exact ih ht hv' hw' hid

theorem mem_baseQuery {ctx : RequestCtx} {st : Store} {u : UserRow}
    (h : u ∈ baseQuery ctx st) : u ∈ st ∧ u.tenant = ctx.tenantId := by
  rw [baseQuery] at h
  have h1 := List.mem_filter.mp h
  refine ⟨h1.1, ?_⟩
  have := h1.2
  rwa [beq_iff_eq] at this

theorem findOne_ok {ctx : RequestCtx} {st : Store} {id : Nat} {u : UserRow}
    (h : findOne ctx st id = Except.ok u) :
    u ∈ st ∧ u.tenant = ctx.tenantId ∧ u.id = id := by
  rw [findOne] at h
  cases hf : (baseQuery ctx st).find? (fun v => v.id == id) with
  | none => rw [hf] at h; exact absurd h (by simp)
  | some w =>
    rw [hf] at h
    have hw : w = u := by
      simpa using h
    subst hw
    have hmem := mem_baseQuery (List.mem_of_find?_eq_some hf)
    have hpred := List.find?_some hf
    rw [beq_iff_eq] at hpred
    exact ⟨hmem.1, hmem.2, hpred⟩

theorem findByEmail_some {ctx : RequestCtx} {st : Store} {e : String} {u : UserRow}
    (h : findByEmail ctx st e = some u) : u ∈ st ∧ u.tenant = ctx.tenantId := by
  rw [findByEmail] at h
  exact mem_baseQuery (List.mem_of_find?_eq_some h)

theorem mem_insertSorted {α : Type} {le : α → α → Bool} {x a : α} : ∀ {l : List α},
    x ∈ insertSorted le a l → x = a ∨ x ∈ l := by
  intro l
  induction l with
  | nil =>
    intro h
    rw [insertSorted] at h
    rcases List.mem_cons.mp h with h1 | h1
    · exact Or.inl h1
    · exact absurd h1 (List.not_mem_nil x)
  | cons y ys ih =>
    intro h
    rw [insertSorted] at h
    by_cases hc : le a y = true
    · rw [if_pos hc] at h
      rcases List.mem_cons.mp h with h1 | h1
      · exact Or.inl h1
      · exact Or.inr h1
    · rw [if_neg hc] at h
      rcases List.mem_cons.mp h with h1 | h1
      · exact Or.inr (h1 ▸ List.mem_cons_self y ys)
      · rcases ih h1 with h2 | h2
        · exact Or.inl h2
        · exact Or.inr (List.mem_cons_of_mem y h2)

theorem mem_sortRows {α : Type} {le : α → α → Bool} {x : α} : ∀ {l : List α},
    x ∈ sortRows le l → x ∈ l := by
  intro l
  induction l with
  | nil =>
    intro h
    exact absurd h (List.not_mem_nil x)
  | cons a t ih =>
    intro h
    have hs : sortRows le (a :: t) = insertSorted le a (sortRows le t) := rfl
    rw [hs] at h
    rcases mem_insertSorted h with h1 | h1
    · exact h1 ▸ List.mem_cons_self a t
    · exact List.mem_cons_of_mem a (ih h1)

theorem mem_optFilter {Q : Type} {o : Option Q} {p : Q → UserRow → Bool}
    {l : List UserRow} {u : UserRow} (h : u ∈ optFilter o p l) : u ∈ l := by
  cases o with
  | some b => exact List.mem_of_mem_filter h
  | none => exact h

theorem mem_findAllRows {ctx : RequestCtx} {st : Store} {q : UserQueryDto} {u : UserRow}
    (h : u ∈ findAllRows ctx st q) : u ∈ baseQuery ctx st := by
  rw [findAllRows] at h
  exact mem_optFilter (mem_optFilter (mem_optFilter (mem_optFilter (mem_sortRows h))))

theorem findById_map_pres (st : Store) (f : UserRow → UserRow)
    (hid : ∀ v, (f v).id = v.id) (p : Nat) :
    findById (st.map f) p = (findById st p).map f := by
  have hc : ((fun u : UserRow => u.id == p) ∘ f) = (fun u : UserRow => u.id == p) := by
    funext v
    simp [Function.comp, hid v]
  rw [findById, findById, List.find?_map, hc]

theorem storeRefreshDigest_id (uid : Nat) (d : Option TokenDigest) (v : UserRow) :
    ((fun w => if w.id == uid then { w with refreshToken := d } else w) v).id = v.id := by
  dsimp only
  by_cases hc : (v.id == uid) = true
  · rw [if_pos hc]
  · rw [if_neg hc]

/-! Claim theorems. -/

/-- C7: verifying a secret against its own digest always succeeds, and
verifying a secret against the digest of a different secret always fails
(bcrypt idealized as an injective digest, per spec section 4.1). -/
theorem c7_hash_verify (s s' : String) (h : s ≠ s') :
    bcryptCompare s (bcryptHash s) = true ∧ bcryptCompare s (bcryptHash s') = false := by
  constructor
  · simp [bcryptCompare]
  · rw [bcryptCompare, beq_eq_false_iff_ne]
    intro he
    exact h (bcryptHash_injOn he).symm

/-- Witness for c7_hash_verify at the secrets a and b. -/
theorem c7_witness :
    ("a" : String) ≠ "b" ∧
      (bcryptCompare "a" (bcryptHash "a") = true ∧
        bcryptCompare "a" (bcryptHash "b") = false) :=
  ⟨by decide, c7_hash_verify "a" "b" (by decide)⟩

/-- C2: the refresh endpoint ACCEPTS a refresh token whose exp claim is in
the past.  At second 1000 the presented token expired at second 10 and Token
Issuer verification fails, yet the flow — which only decodes the token and
compares the bcrypt fingerprint — issues a fresh token pair.  This
contradicts the claim that an expired refresh token always fails with
Unauthorized. -/
theorem c2_expired_refresh_accepted :
    verifyToken tokExpired 1000 = false ∧
      (refreshFlow cfg0 stExpired tokExpired 1000).1 =
        Except.ok (generateTokens cfg0 1 "ann@acme.co" 1000) :=
  ⟨rfl, rfl⟩

/-- C3: a principal whose status is inactive logs in successfully with the
correct email and password: validateUser never consults the stored status,
so the flow issues a token pair instead of the Unauthorized required by the
claim. -/
theorem c3_inactive_login_succeeds :
    (stInactive.map (fun u => u.status)) = [UserStatus.inactive] ∧
      (validateUser ctx0 stInactive "ann@acme.co" "Secr3t!pw").isSome = true ∧
      isOkE (loginFlow ctx0 cfg0 stInactive "ann@acme.co" "Secr3t!pw" 5).1 = true :=
  ⟨rfl, rfl, rfl⟩

/-- C5 counterexample: with no duplicate of the email in the store, a
non-conflict failure inside the register try block (here a database write
failure after the user insert) is surfaced to the caller as Conflict with
message Registration failed — so Conflict does NOT imply a duplicate
registration, refuting the only-if direction of the claim. -/
theorem c5_counterexample :
    ((baseQuery ctx0 ([] : Store)).find? (fun u => u.email == lowerStr dtoReg.email)) = none ∧
      (registerFlow ctx0 cfg0 [] dtoReg 0 (some (ApiError.other "database write failed"))).1 =
        Except.error (ApiError.conflict "Registration failed") :=
  ⟨rfl, rfl⟩

/-- C5 amended: a duplicate (tenant, email) always surfaces as Conflict, and
moreover EVERY failure of the register flow surfaces as Conflict — the
catch-all converts any non-conflict error into Conflict with message
Registration failed; absent a duplicate and an environment failure the flow
succeeds. -/
theorem c5_register_conflict (ctx : RequestCtx) (cfg : JwtConfig) (st : Store)
    (dto : CreateUserDto) (now : Nat) (envFail : Option ApiError) :
    (((baseQuery ctx st).find? (fun u => u.email == lowerStr dto.email)).isSome = true →
        (registerFlow ctx cfg st dto now envFail).1 =
          Except.error (ApiError.conflict "User with this email already exists")) ∧
      (∀ e st', registerFlow ctx cfg st dto now envFail = (Except.error e, st') →
        isConflictErr e = true) ∧
      (((baseQuery ctx st).find? (fun u => u.email == lowerStr dto.email)) = none →
        envFail = none →
        isOkE (registerFlow ctx cfg st dto now envFail).1 = true) := by
  refine ⟨?_, ?_, ?_⟩
  · intro hdup
    cases hf : (baseQuery ctx st).find? (fun u => u.email == lowerStr dto.email) with
    | none => rw [hf] at hdup; exact absurd hdup (by simp)
    | some w => simp [registerFlow, create, hf, isConflictErr]
  · intro e st' h
    rw [registerFlow, create] at h
    cases hf : (baseQuery ctx st).find? (fun u => u.email == lowerStr dto.email) with
    | some w =>
      rw [hf] at h
      simp only [isConflictErr, if_pos] at h
      rw [Prod.mk.injEq] at h
      have h1 := h.1
      injection h1 with h2
      rw [← h2]
      rfl
    | none =>
      rw [hf] at h
      cases envFail with
      | none =>
        exact absurd (congrArg Prod.fst h) (by simp)
      | some e0 =>
        dsimp only at h
        by_cases hc : isConflictErr e0 = true
        · rw [if_pos hc] at h
          rw [Prod.mk.injEq] at h
          have h1 := h.1
          injection h1 with h2
          rw [← h2]
          exact hc
        · rw [if_neg hc] at h
          rw [Prod.mk.injEq] at h
          have h1 := h.1
          injection h1 with h2
          rw [← h2]
          rfl
  · intro hf henv
    rw [registerFlow, create, hf, henv]
    rfl

/-- Witness for c5_register_conflict: on a store already holding the email,
register surfaces the duplicate Conflict; on an empty store with a failing
environment the surfaced error is still conflict-shaped. -/
theorem c5_witness :
    (registerFlow ctx0 cfg0 stOne
        { dtoReg with email := "ann@acme.co" } 0 none).1 =
      Except.error (ApiError.conflict "User with this email already exists") ∧
      isConflictErr (ApiError.conflict "Registration failed") = true :=
  ⟨(c5_register_conflict ctx0 cfg0 stOne { dtoReg with email := "ann@acme.co" } 0 none).1 rfl,
    (c5_register_conflict ctx0 cfg0 [] dtoReg 0
        (some (ApiError.other "database write failed"))).2.1
      (ApiError.conflict "Registration failed") [regRow] (by rfl)⟩

/-- C6 counterexample: an admin deactivating or deleting their own principal
id is rejected with BadRequestException, not the Forbidden the claim states;
the store is unchanged.  The error is concretely not forbidden-shaped. -/
theorem c6_counterexample :
    deactivate ctxSelf stOne 1 5 =
        (Except.error (ApiError.badRequest "You cannot deactivate your own account"), stOne) ∧
      remove ctxSelf stOne 1 =
        (Except.error (ApiError.badRequest "You cannot delete your own account"), stOne) ∧
      ((errAPI (deactivate ctxSelf stOne 1 5).1).map isForbiddenErr = some false ∧
        (errAPI (remove ctxSelf stOne 1).1).map isForbiddenErr = some false) :=
  ⟨rfl, rfl, rfl, rfl⟩

/-- C6 amended: when the authenticated caller targets their own principal id
and the target row exists in the tenant, deactivate and delete are rejected —
with BadRequest (message You cannot deactivate/delete your own account), not
Forbidden — and the stored state is unchanged by the rejected call. -/
theorem c6_self_guard (ctx : RequestCtx) (st : Store) (id now : Nat) (u : UserRow)
    (hself : getCurrentUserId ctx = some id) (hfind : findOne ctx st id = Except.ok u) :
    deactivate ctx st id now =
        (Except.error (ApiError.badRequest "You cannot deactivate your own account"), st) ∧
      remove ctx st id =
        (Except.error (ApiError.badRequest "You cannot delete your own account"), st) := by
  constructor
  · rw [deactivate, hfind]
    dsimp only
    rw [hself]
    simp
  · rw [remove, hfind]
    dsimp only
    rw [hself]
    simp

/-- Witness for c6_self_guard: the admin with principal id 1 targets id 1 in
a store holding that row. -/
theorem c6_witness :
    deactivate ctxSelf stOne 1 5 =
        (Except.error (ApiError.badRequest "You cannot deactivate your own account"), stOne) ∧
      remove ctxSelf stOne 1 =
        (Except.error (ApiError.badRequest "You cannot delete your own account"), stOne) :=
  c6_self_guard ctxSelf stOne 1 5 rowAnn rfl rfl

/-- C8 counterexample: the BeforeInsert hook guard
(password_hash truthy and not starting with "$2a$") admits two bypasses, and
create stores the supplied plaintext VERBATIM through both: a caller-chosen
plaintext that itself starts with the bcrypt marker "$2a$", and the empty
plaintext (falsy in JS).  Either refutes the for-every-plaintext claim. -/
theorem c8_counterexample :
    (((create ctx0 [] dtoEvil 0).2.map (fun u => u.password_hash)) = [dtoEvil.password] ∧
        isOkE (create ctx0 [] dtoEvil 0).1 = true ∧
        dtoEvil.password = "$2a$evil-plaintext") ∧
      (((create ctx0 [] dtoEmpty 0).2.map (fun u => u.password_hash)) = [dtoEmpty.password] ∧
        isOkE (create ctx0 [] dtoEmpty 0).1 = true ∧
        dtoEmpty.password = "") :=
  ⟨⟨rfl, rfl, rfl⟩, ⟨rfl, rfl, rfl⟩⟩

/-- C8 amended: for every NONEMPTY plaintext that does not start with the
bcrypt marker "$2a$", create and changePassword store the bcrypt digest of
the supplied plaintext and never the plaintext itself; an empty plaintext or
one starting with "$2a$" bypasses the hook guard and is stored verbatim. -/
theorem c8_password_digest (ctx : RequestCtx) (st : Store) (dto : CreateUserDto)
    (cp : ChangePasswordDto) (id now : Nat)
    (hcp : strStartsWith dto.password "$2a$" = false)
    (hnp : strStartsWith cp.new_password "$2a$" = false)
    (hcpn : dto.password.data.isEmpty = false)
    (hnpn : cp.new_password.data.isEmpty = false) :
    (∀ u st', create ctx st dto now = (Except.ok u, st') →
        u.password_hash = bcryptHash dto.password ∧ u.password_hash ≠ dto.password) ∧
      (∀ st', changePassword ctx st id cp now = (Except.ok (), st') →
        ∀ v ∈ st', v ∈ st ∨
          (v.password_hash = bcryptHash cp.new_password ∧
            v.password_hash ≠ cp.new_password)) := by
  constructor
  · intro u st' h
    rw [create] at h
    cases hf : (baseQuery ctx st).find? (fun v => v.email == lowerStr dto.email) with
    | some w =>
      rw [hf] at h
      exact absurd (congrArg Prod.fst h) (by simp)
    | none =>
      rw [hf] at h
      dsimp only at h
      rw [Prod.mk.injEq] at h
      have h1 := h.1
      injection h1 with h2
      rw [← h2]
      dsimp only
      rw [hashPasswordHook, if_neg (by simp [hcpn]), if_neg (by simp [hcp])]
      exact ⟨rfl, bcryptHash_ne_self dto.password⟩
  · intro st' h v hv
    rw [changePassword] at h
    by_cases hg : (getCurrentUserId ctx != some id) = true
    · rw [if_pos hg] at h
      exact absurd (congrArg Prod.fst h) (by simp)
    · rw [if_neg hg] at h
      cases hfo : findOne ctx st id with
      | error e =>
        rw [hfo] at h
        exact absurd (congrArg Prod.fst h) (by simp)
      | ok user =>
        rw [hfo] at h
        dsimp only at h
        by_cases hvp : validatePassword cp.current_password user.password_hash = true
        · rw [if_pos hvp] at h
          rw [Prod.mk.injEq] at h
          have hst := h.2
          rw [saveExisting] at hst
          dsimp only at hst
          rw [← hst] at hv
          obtain ⟨w, hw, hwe⟩ := List.mem_map.mp hv
          by_cases hc : (w.id = user.id)
          · have : v.password_hash = hashPasswordHook cp.new_password := by
              rw [← hwe]
              simp [hc]
            right
            rw [hashPasswordHook, if_neg (by simp [hnpn]), if_neg (by simp [hnp])] at this
            exact ⟨this, by rw [this]; exact bcryptHash_ne_self cp.new_password⟩
          · left
            have : v = w := by
              rw [← hwe]
              simp [hc]
            rw [this]
            exact hw
        · rw [if_neg hvp] at h
          exact absurd (congrArg Prod.fst h) (by simp)

/-- Witness for c8_password_digest: register of dtoReg stores the digest of
Passw0rd!; the self change-password on stRefresh stores the digest of
NewPw12!. -/
theorem c8_witness :
    (regRow.password_hash = bcryptHash dtoReg.password ∧
        regRow.password_hash ≠ dtoReg.password) ∧
      (rowCpR ∈ stRefresh ∨
        (rowCpR.password_hash = bcryptHash cp0.new_password ∧
          rowCpR.password_hash ≠ cp0.new_password)) :=
  ⟨(c8_password_digest ctx0 [] dtoReg cp0 1 0 rfl rfl rfl rfl).1 regRow [regRow] rfl,
    (c8_password_digest ctxSelf stRefresh dtoReg cp0 1 3 rfl rfl rfl rfl).2 stAfterCpR rfl
      rowCpR (by simp [stAfterCpR])⟩

/-- C4 counterexample: JWT payloads are deterministic, so a refresh executed
in the same second as the issuance of t1 re-issues a token with identical
claims — the rotated fingerprint is again the fingerprint of t1 — and a
SECOND refresh presenting t1 succeeds as well, refuting succeeds-exactly-once. -/
theorem c4_counterexample :
    isOkE (refreshTokens cfg0 stRefresh 1 tok1 0).1 = true ∧
      isOkE (refreshTokens cfg0 (refreshTokens cfg0 stRefresh 1 tok1 0).2 1 tok1 0).1 = true :=
  ⟨rfl, rfl⟩

/-- C4 amended: with the fingerprint of t1 stored, a refresh presenting t1
succeeds and rotates the record to the fingerprint of the newly issued
refresh token; PROVIDED that new token differs from t1 (distinct issue
second), every later refresh presenting t1 fails with Unauthorized and
leaves the store unchanged — stated generally by the last conjunct for any
store whose fingerprint is not the fingerprint of t1. -/
theorem c4_rotation_single_use (cfg : JwtConfig) (st : Store) (p now1 now2 : Nat)
    (t1 : Jwt) (u : UserRow)
    (hfind : findById st p = some u)
    (hstore : u.refreshToken = some (bcryptHashToken t1)) :
    (refreshTokens cfg st p t1 now1 =
        (Except.ok (generateTokens cfg u.id u.email now1),
          updateRefreshToken st u.id (some (signToken u.id u.email now1 cfg.refreshTTL)))) ∧
      (signToken u.id u.email now1 cfg.refreshTTL ≠ t1 →
        refreshTokens cfg
            (updateRefreshToken st u.id (some (signToken u.id u.email now1 cfg.refreshTTL)))
            p t1 now2 =
          (Except.error (ApiError.unauthorized "Access Denied"),
            updateRefreshToken st u.id (some (signToken u.id u.email now1 cfg.refreshTTL)))) ∧
      (∀ st₂ u₂ d, findById st₂ p = some u₂ → u₂.refreshToken = some d →
        d ≠ bcryptHashToken t1 →
        refreshTokens cfg st₂ p t1 now2 =
          (Except.error (ApiError.unauthorized "Access Denied"), st₂)) := by
  have hrej : ∀ st₂ u₂ d, findById st₂ p = some u₂ → u₂.refreshToken = some d →
      d ≠ bcryptHashToken t1 →
      refreshTokens cfg st₂ p t1 now2 =
        (Except.error (ApiError.unauthorized "Access Denied"), st₂) := by
    intro st₂ u₂ d h2 hd hne
    rw [refreshTokens, h2]
    dsimp only
    rw [hd]
    dsimp only
    have hcmp : bcryptCompareToken t1 d = false := by
      rw [bcryptCompareToken, beq_eq_false_iff_ne]
      intro he
      apply hne
      cases d with
      | mk val =>
        dsimp only at he
        rw [bcryptHashToken, he]
    rw [hcmp]
    simp
  refine ⟨?_, ?_, hrej⟩
  · rw [refreshTokens, hfind]
    dsimp only
    rw [hstore]
    dsimp only
    have hcmp : bcryptCompareToken t1 (bcryptHashToken t1) = true := by
      rw [bcryptCompareToken, bcryptHashToken]
      exact beq_self_eq_true t1
    rw [hcmp]
    simp [generateTokens]
  · intro hne
    have hid := storeRefreshDigest_id u.id (some (bcryptHashToken
      (signToken u.id u.email now1 cfg.refreshTTL)))
    have hmap : findById
        (updateRefreshToken st u.id (some (signToken u.id u.email now1 cfg.refreshTTL))) p =
        some ((fun w => if w.id == u.id then
          { w with refreshToken := some (bcryptHashToken
              (signToken u.id u.email now1 cfg.refreshTTL)) } else w) u) := by
      rw [updateRefreshToken, storeRefreshDigest]
      dsimp only [Option.map]
      rw [findById_map_pres _ _ hid p, hfind]
      rfl
    have hu2 : ((fun w => if w.id == u.id then
        { w with refreshToken := some (bcryptHashToken
            (signToken u.id u.email now1 cfg.refreshTTL)) } else w) u).refreshToken =
        some (bcryptHashToken (signToken u.id u.email now1 cfg.refreshTTL)) := by
      simp
    refine hrej _ _ _ hmap hu2 ?_
    intro hdd
    apply hne
    have := congrArg TokenDigest.val hdd
    exact this

/-- Witness for c4_rotation_single_use: principal 1 rotated to tok1 at
second 0 refreshes with tok1 at second 5 successfully; since the new token
is issued at a different second, presenting tok1 again at second 9 fails. -/
theorem c4_witness :
    (refreshTokens cfg0 stRefresh 1 tok1 5 =
        (Except.ok (generateTokens cfg0 rowRefresh.id rowRefresh.email 5),
          updateRefreshToken stRefresh rowRefresh.id
            (some (signToken rowRefresh.id rowRefresh.email 5 cfg0.refreshTTL)))) ∧
      (refreshTokens cfg0
          (updateRefreshToken stRefresh rowRefresh.id
            (some (signToken rowRefresh.id rowRefresh.email 5 cfg0.refreshTTL)))
          1 tok1 9 =
        (Except.error (ApiError.unauthorized "Access Denied"),
          updateRefreshToken stRefresh rowRefresh.id
            (some (signToken rowRefresh.id rowRefresh.email 5 cfg0.refreshTTL)))) :=
  have h := c4_rotation_single_use cfg0 stRefresh 1 5 9 tok1 rowRefresh rfl rfl
  ⟨h.1, h.2.1 (by decide)⟩

/-- Inversion of a successful changePassword: the caller was the target, the
target row was found in the tenant, and the store was rewritten by replacing
the row of that id with the row carrying the hashed new password. -/
theorem changePassword_ok {ctx : RequestCtx} {st st' : Store} {id now : Nat}
    {dto : ChangePasswordDto}
    (h : changePassword ctx st id dto now = (Except.ok (), st')) :
    ∃ user, findOne ctx st id = Except.ok user ∧
      st' = st.map (fun v => if v.id == user.id then
        { user with password_hash := hashPasswordHook dto.new_password,
                    updated_by := getCurrentUserId ctx, updated_at := now } else v) := by
  rw [changePassword] at h
  by_cases hg : (getCurrentUserId ctx != some id) = true
  · rw [if_pos hg] at h
    exact absurd (congrArg Prod.fst h) (by simp)
  · rw [if_neg hg] at h
    cases hfo : findOne ctx st id with
    | error e =>
      rw [hfo] at h
      exact absurd (congrArg Prod.fst h) (by simp)
    | ok user =>
      rw [hfo] at h
      dsimp only at h
      by_cases hvp : validatePassword dto.current_password user.password_hash = true
      · rw [if_pos hvp] at h
        rw [saveExisting] at h
        dsimp only at h
        refine ⟨user, rfl, ?_⟩
        rw [Prod.mk.injEq] at h
        exact h.2.symm
      · rw [if_neg hvp] at h
        exact absurd (congrArg Prod.fst h) (by simp)

/-- C9: a successful changePassword rewrites only the password digest and
the bookkeeping columns (updated_by, updated_at) of the target row — in
particular every row keeps its refresh fingerprint — and any refresh that
succeeded against the prior store still succeeds with the very same token
pair afterwards. -/
theorem c9_change_password_frame (ctx : RequestCtx) (st st' : Store) (id now : Nat)
    (dto : ChangePasswordDto) (huniq : uniqueIds st)
    (h : changePassword ctx st id dto now = (Except.ok (), st')) :
    (st'.length = st.length ∧
      ∀ p ∈ List.zip st st',
        p.2 = { p.1 with password_hash := p.2.password_hash,
                         updated_by := p.2.updated_by,
                         updated_at := p.2.updated_at }) ∧
      (∀ cfg uid t now2 toks st₂,
        refreshTokens cfg st uid t now2 = (Except.ok toks, st₂) →
        refreshTokens cfg st' uid t now2 =
          (Except.ok toks, updateRefreshToken st' uid (some toks.refreshToken))) := by
  obtain ⟨user, hfo, hst⟩ := changePassword_ok h
  have huser := findOne_ok hfo
  set rNew : UserRow := { user with
      password_hash := hashPasswordHook dto.new_password
      updated_by := getCurrentUserId ctx
      updated_at := now } with hrdef
  set f : UserRow → UserRow := fun v => if v.id == user.id then rNew else v with hfdef
  have hid : ∀ v, (f v).id = v.id := by
    intro v
    rw [hfdef]
    dsimp only
    by_cases hc : (v.id == user.id) = true
    · rw [if_pos hc, hrdef]
      rw [beq_iff_eq] at hc
      exact hc.symm
    · rw [if_neg hc]
  constructor
  · constructor
    · rw [hst]
      simp
    · intro p hp
      rw [hst] at hp
      obtain ⟨h2, h1⟩ := mem_zip_self_map hp
      by_cases hc : (p.1.id == user.id) = true
      · have hpu : p.1 = user := eq_of_uniqueIds huniq h1 huser.1 (by rwa [beq_iff_eq] at hc)
        have h2' : p.2 = rNew := by
          rw [h2, hfdef]
          dsimp only
          rw [if_pos hc]
        rw [h2', hpu, hrdef]
      · have h2' : p.2 = p.1 := by
          rw [h2, hfdef]
          dsimp only
          rw [if_neg hc]
        rw [h2']
  · intro cfg uid t now2 toks st₂ hrt
    rw [refreshTokens] at hrt
    cases hfi : findById st uid with
    | none =>
      rw [hfi] at hrt
      exact absurd (congrArg Prod.fst hrt) (by simp)
    | some w =>
      rw [hfi] at hrt
      dsimp only at hrt
      cases hrf : w.refreshToken with
      | none =>
        rw [hrf] at hrt
        exact absurd (congrArg Prod.fst hrt) (by simp)
      | some dgt =>
        rw [hrf] at hrt
        dsimp only at hrt
        by_cases hcmp : bcryptCompareToken t dgt = true
        · rw [if_pos hcmp] at hrt
          rw [Prod.mk.injEq] at hrt
          have htoks : generateTokens cfg w.id w.email now2 = toks := by
            have h1 := hrt.1
            injection h1 with h2
          have hwid : w.id = uid := by
            rw [findById] at hfi
            have := List.find?_some hfi
            rwa [beq_iff_eq] at this
          have hwmem : w ∈ st := by
            rw [findById] at hfi
            exact List.mem_of_find?_eq_some hfi
          have hpres : (f w).refreshToken = w.refreshToken ∧ (f w).email = w.email ∧
              (f w).id = w.id := by
            rw [hfdef]
            dsimp only
            by_cases hc : (w.id == user.id) = true
            · have hwu : w = user :=
                eq_of_uniqueIds huniq hwmem huser.1 (by rwa [beq_iff_eq] at hc)
              rw [if_pos hc, hrdef, hwu]
              exact ⟨rfl, rfl, rfl⟩
            · rw [if_neg hc]
              exact ⟨rfl, rfl, rfl⟩
          have hfi' : findById st' uid = some (f w) := by
            rw [hst, findById_map_pres _ _ hid uid, hfi]
            rfl
          rw [refreshTokens, hfi']
          dsimp only
          rw [hpres.1, hrf]
          dsimp only
          rw [if_pos hcmp]
          rw [Prod.mk.injEq]
          constructor
          · rw [hpres.2.2, hpres.2.1, htoks]
          · rw [hpres.2.2, hpres.2.1, htoks, hwid]
        · rw [if_neg hcmp] at hrt
          exact absurd (congrArg Prod.fst hrt) (by simp)

/-- Witness for c9_change_password_frame: after principal 1 changes the
password on stRefresh, the refresh that succeeded before the change still
succeeds with the same token pair. -/
theorem c9_witness :
    refreshTokens cfg0 stAfterCpR 1 tok1 11 =
      (Except.ok (generateTokens cfg0 1 "ann@acme.co" 11),
        updateRefreshToken stAfterCpR 1
          (some (generateTokens cfg0 1 "ann@acme.co" 11).refreshToken)) :=
  (c9_change_password_frame ctxSelf stRefresh stAfterCpR 1 3 cp0
      (by simp [uniqueIds, stRefresh]) rfl).2 cfg0 1 tok1 11
    (generateTokens cfg0 1 "ann@acme.co" 11)
    (updateRefreshToken stRefresh 1
      (some (generateTokens cfg0 1 "ann@acme.co" 11).refreshToken)) rfl

/-- C10: every element of the findAll response data carries, as plain
fields, the stored password digest, password reset token and password reset
expiry of the corresponding user row of the scope tenant. -/
theorem c10_findall_exposes_secrets (ctx : RequestCtx) (st : Store) (q : UserQueryDto)
    (d : UserResponseItem) (hd : d ∈ (findAll ctx st q).data) :
    (ctx.tenantId, d.id, d.password_hash, d.password_reset_token,
        d.password_reset_expires_at) ∈
      st.map (fun u => (u.tenant, u.id, u.password_hash, u.password_reset_token,
        u.password_reset_expires_at)) := by
  rw [findAll] at hd
  dsimp only at hd
  obtain ⟨u, hu, hdu⟩ := List.mem_map.mp hd
  have h1 : u ∈ findAllRows ctx st q := List.drop_subset _ _ (List.take_subset _ _ hu)
  have h2 := mem_baseQuery (mem_findAllRows h1)
  apply List.mem_map.mpr
  refine ⟨u, h2.1, ?_⟩
  rw [← hdu, h2.2]
  rfl

/-- Witness for c10_findall_exposes_secrets: the default findAll over stOne
returns the row of principal 1, whose response item carries the stored
password digest. -/
theorem c10_witness :
    (ctx0.tenantId, (toResponseItem rowAnn).id, (toResponseItem rowAnn).password_hash,
        (toResponseItem rowAnn).password_reset_token,
        (toResponseItem rowAnn).password_reset_expires_at) ∈
      stOne.map (fun u => (u.tenant, u.id, u.password_hash, u.password_reset_token,
        u.password_reset_expires_at)) :=
  c10_findall_exposes_secrets ctx0 stOne q0 (toResponseItem rowAnn) (by decide)

/-- Overwriting the row that carries a given primary key touches only rows
of the tenant, provided the key belongs to a tenant row and the written row
is a tenant row. -/
theorem rowWrites_overwrite {tid : Nat} {st : Store} (huniq : uniqueIds st) {w : UserRow}
    (hw : w ∈ st) (hwt : w.tenant = tid) {rid : Nat} (hrid : rid = w.id) {r' : UserRow}
    (hrt : r'.tenant = tid) :
    RowWrites tid st (st.map (fun v => if v.id == rid then r' else v)) := by
  apply rowWrites_map
  intro v hv
  by_cases hc : (v.id == rid) = true
  · right
    have hveq : v = w := by
      apply eq_of_uniqueIds huniq hv hw
      rw [beq_iff_eq] at hc
      rw [hc, hrid]
    constructor
    · rw [hveq]; exact hwt
    · dsimp only
      rw [if_pos hc]
      exact hrt
  · left
    dsimp only
    rw [if_neg hc]

/-- C1: every read and every write that UsersService issues against the
store touches only rows whose tenant equals the scope tenant — reads
(findOne, findByEmail, findAll) return only tenant rows, create inserts a
row stamped with the scope tenant, and every updating operation (update,
changePassword, remove, activate, deactivate, updateLastLogin, bulk
activate/deactivate) changes only positions that held and keep a tenant row,
regardless of the caller-supplied id or parameters.  The write conjuncts for
the save-by-primary-key operations assume the primary-key discipline
uniqueIds. -/
theorem c1_tenant_isolation (ctx : RequestCtx) (st : Store) :
    (∀ id u, findOne ctx st id = Except.ok u → u.tenant = ctx.tenantId) ∧
      (∀ e u, findByEmail ctx st e = some u → u.tenant = ctx.tenantId) ∧
      (∀ q u, u ∈ findAllRows ctx st q → u.tenant = ctx.tenantId) ∧
      (∀ dto now u st', create ctx st dto now = (Except.ok u, st') →
        st' = st ++ [u] ∧ u.tenant = ctx.tenantId) ∧
      (∀ id dto now u st', uniqueIds st → update ctx st id dto now = (Except.ok u, st') →
        RowWrites ctx.tenantId st st') ∧
      (∀ id dto now st', uniqueIds st →
        changePassword ctx st id dto now = (Except.ok (), st') →
        RowWrites ctx.tenantId st st') ∧
      (∀ id st', uniqueIds st → remove ctx st id = (Except.ok (), st') →
        RowWrites ctx.tenantId st st') ∧
      (∀ id now u st', uniqueIds st → activate ctx st id now = (Except.ok u, st') →
        RowWrites ctx.tenantId st st') ∧
      (∀ id now u st', uniqueIds st → deactivate ctx st id now = (Except.ok u, st') →
        RowWrites ctx.tenantId st st') ∧
      (∀ id now, RowWrites ctx.tenantId st (updateLastLogin ctx st id now)) ∧
      (∀ ids now, RowWrites ctx.tenantId st (bulkActivate ctx st ids now)) ∧
      (∀ ids now, RowWrites ctx.tenantId st (bulkDeactivate ctx st ids now)) := by
  refine ⟨?_, ?_, ?_, ?_, ?_, ?_, ?_, ?_, ?_, ?_, ?_, ?_⟩
  · intro id u h
    exact (findOne_ok h).2.1
  · intro e u h
    exact (findByEmail_some h).2
  · intro q u h
    exact (mem_baseQuery (mem_findAllRows h)).2
  · intro dto now u st' h
    rw [create] at h
    cases hf : (baseQuery ctx st).find? (fun v => v.email == lowerStr dto.email) with
    | some w =>
      rw [hf] at h
      exact absurd (congrArg Prod.fst h) (by simp)
    | none =>
      rw [hf] at h
      dsimp only at h
      rw [Prod.mk.injEq] at h
      have h1 := h.1
      injection h1 with h2
      constructor
      · rw [← h.2, ← h2]
      · rw [← h2]
        rfl
  · intro id dto now u st' huniq h
    rw [update] at h
    cases hfo : findOne ctx st id with
    | error e =>
      rw [hfo] at h
      exact absurd (congrArg Prod.fst h) (by simp)
    | ok user =>
      have huser := findOne_ok hfo
      rw [hfo] at h
      dsimp only at h
      split at h
      · exact absurd (congrArg Prod.fst h) (by simp)
      · rw [saveExisting] at h
        dsimp only at h
        rw [Prod.mk.injEq] at h
        rw [← h.2]
        exact rowWrites_overwrite huniq huser.1 huser.2.1 rfl huser.2.1
  · intro id dto now st' huniq h
    obtain ⟨user, hfo, hst⟩ := changePassword_ok h
    have huser := findOne_ok hfo
    rw [hst]
    exact rowWrites_overwrite huniq huser.1 huser.2.1 rfl huser.2.1
  · intro id st' huniq h
    rw [remove] at h
    cases hfo : findOne ctx st id with
    | error e =>
      rw [hfo] at h
      exact absurd (congrArg Prod.fst h) (by simp)
    | ok user =>
      have huser := findOne_ok hfo
      rw [hfo] at h
      dsimp only at h
      split at h
      · exact absurd (congrArg Prod.fst h) (by simp)
      · rw [Prod.mk.injEq] at h
        rw [← h.2]
        apply rowWrites_map
        intro v hv
        by_cases hc : (v.id == id) = true
        · right
          have hveq : v = user := by
            apply eq_of_uniqueIds huniq hv huser.1
            rw [beq_iff_eq] at hc
            rw [hc, huser.2.2]
          constructor
          · rw [hveq]; exact huser.2.1
          · dsimp only
            rw [if_pos hc, hveq]
            exact huser.2.1
        · left
          dsimp only
          rw [if_neg hc]
  · intro id now u st' huniq h
    rw [activate] at h
    cases hfo : findOne ctx st id with
    | error e =>
      rw [hfo] at h
      exact absurd (congrArg Prod.fst h) (by simp)
    | ok user =>
      have huser := findOne_ok hfo
      rw [hfo] at h
      dsimp only at h
      rw [saveExisting] at h
      dsimp only at h
      rw [Prod.mk.injEq] at h
      rw [← h.2]
      exact rowWrites_overwrite huniq huser.1 huser.2.1 rfl huser.2.1
  · intro id now u st' huniq h
    rw [deactivate] at h
    cases hfo : findOne ctx st id with
    | error e =>
      rw [hfo] at h
      exact absurd (congrArg Prod.fst h) (by simp)
    | ok user =>
      have huser := findOne_ok hfo
      rw [hfo] at h
      dsimp only at h
      split at h
      · exact absurd (congrArg Prod.fst h) (by simp)
      · rw [saveExisting] at h
        dsimp only at h
        rw [Prod.mk.injEq] at h
        rw [← h.2]
        exact rowWrites_overwrite huniq huser.1 huser.2.1 rfl huser.2.1
  · intro id now
    rw [updateLastLogin]
    apply rowWrites_map
    intro v _
    by_cases hc : (v.id == id && v.tenant == getTenantId ctx) = true
    · right
      have hc' := hc
      simp only [Bool.and_eq_true] at hc'
      have ht := hc'.2
      rw [beq_iff_eq] at ht
      refine ⟨ht, ?_⟩
      dsimp only
      rw [if_pos hc]
      exact ht
    · left
      dsimp only
      rw [if_neg hc]
  · intro ids now
    rw [bulkActivate]
    apply rowWrites_map
    intro v _
    by_cases hc : (ids.contains v.id && v.tenant == getTenantId ctx) = true
    · right
      have hc' := hc
      simp only [Bool.and_eq_true] at hc'
      have ht := hc'.2
      rw [beq_iff_eq] at ht
      refine ⟨ht, ?_⟩
      dsimp only
      rw [if_pos hc]
      exact ht
    · left
      dsimp only
      rw [if_neg hc]
  · intro ids now
    rw [bulkDeactivate]
    split
    · exact rowWrites_self _ _
    · apply rowWrites_map
      intro v _
      by_cases hc : ((ids.filter (fun i => getCurrentUserId ctx != some i)).contains v.id &&
          v.tenant == getTenantId ctx) = true
      · right
        have hc' := hc
        simp only [Bool.and_eq_true] at hc'
        have ht := hc'.2
        rw [beq_iff_eq] at ht
        refine ⟨ht, ?_⟩
        dsimp only
        rw [if_pos hc]
        exact ht
      · left
        dsimp only
        rw [if_neg hc]

/-- Witness for c1_tenant_isolation: on the one-row store of tenant 7, the
row read by findOne is a tenant-7 row, the last-login update touches only
tenant-7 rows, and the soft delete of principal 1 by admin 2 touches only
tenant-7 rows. -/
theorem c1_witness :
    rowAnn.tenant = ctx0.tenantId ∧
      RowWrites ctx0.tenantId stOne (updateLastLogin ctx0 stOne 1 9) ∧
      RowWrites ctx0.tenantId stOne [{ rowAnn with deleted := true }] :=
  ⟨(c1_tenant_isolation ctx0 stOne).1 1 rowAnn rfl,
    (c1_tenant_isolation ctx0 stOne).2.2.2.2.2.2.2.2.2.1 1 9,
    (c1_tenant_isolation ctx0 stOne).2.2.2.2.2.2.1 1 [{ rowAnn with deleted := true }]
      (by simp [uniqueIds, stOne]) rfl⟩

end StockTrack
